import Mathlib

/-!
Verification development for the patch-extraction and batching engine of
`VSR/DataLoader/Loader.py` (class `Loader` and class `BatchLoader`).

The Python code is shallowly embedded: crop boxes become four-field `Nat`
structures, the generators `_build_iter` / `_build_random_iter` become
functions producing the finite list of (high-res box, low-res box) pairs a
single non-looping pass yields, and the hand-rolled iteration/termination
behaviour (StopIteration, quota counter, batch accumulation) becomes
explicit state passing.  Randomness (`np.random.randint`) is passed in as
an explicit oracle; Python floor division on naturals is `Nat` division,
and on possibly-negative ints it is `Int.fdiv`; Python true division is
modelled over `ℚ`.
-/

namespace VSR

/-- Crop box `(left, top, right, bottom)` in pixel coordinates, the
`np.array([w, h, w + pw, h + ph])` of `Loader.py`. -/
structure Box where
  left : Nat
  top : Nat
  right : Nat
  bottom : Nat
  deriving DecidableEq, Repr

/-- Modelled from the spec: `ImageProcess.shrink_to_multiple_scale` (not under
`src/`) crops an image so each axis is a multiple of the corresponding scale
factor; per axis the result is the largest multiple of `s` not exceeding `w`. -/
def shrinkDim (w s : Nat) : Nat := w - w % s

/-- Python `range(0, stop, step)` for a non-negative `stop`: the multiples of
`step` below `stop`.  (`List.range' 0 n step` is `[0, step, ..., (n-1)*step]`;
`n = ⌈stop/step⌉`.) -/
def pyRange (stop step : Nat) : List Nat :=
  List.range' 0 ((stop + step - 1) / step) step

/-- The deterministic grid walk of `Loader._build_iter` (lines 81-82):
`for w in range(0, width, strides[0]): for h in range(0, height, strides[1])`,
in that nesting order. -/
def gridCells (width height sw sh : Nat) : List (Nat × Nat) :=
  (pyRange width sw).flatMap fun w => (pyRange height sh).map fun h => (w, h)

/-- High-resolution crop box `np.array([w, h, w + pw, h + ph])` (line 85/111). -/
def hrBox (w h pw ph : Nat) : Box := ⟨w, h, w + pw, h + ph⟩

/-- Low-resolution crop box `box // [*self.scale, *self.scale]` (line 87/113):
elementwise floor division of the four coordinates by `[s0, s1, s0, s1]`. -/
def lrBox (b : Box) (s0 s1 : Nat) : Box :=
  ⟨b.left / s0, b.top / s1, b.right / s0, b.bottom / s1⟩

/-- Patch pairs one depth-group contributes in `Loader._build_iter`
(lines 81-88): every grid cell is visited; a cell whose box would extend past
the right or bottom edge is skipped (`continue`), otherwise the (hr, lr) box
pair is yielded. -/
def framePatches (width height pw ph sw sh s0 s1 : Nat) : List (Box × Box) :=
  (gridCells width height sw sh).filterMap fun c =>
    if width < c.1 + pw ∨ height < c.2 + ph then none
    else some (hrBox c.1 c.2 pw ph, lrBox (hrBox c.1 c.2 pw ph) s0 s1)

/-- A virtual file as the loader sees it: frame dimensions (`vf.shape`) and the
number of frames available at the start of the pass (`vf.frames`). -/
structure VFile where
  width : Nat
  height : Nat
  frames : Nat
  deriving DecidableEq, Repr

/-- One non-looping pass of `Loader._build_iter` (lines 72-89): for each file,
`vf.frames // depth` depth-groups are read; each group's frames are shrunk to a
multiple of the scale (so the frame the grid walks has the shrunken
dimensions), and `strides` / `patch_size` fall back to the full (shrunken)
frame when unset (`None`). -/
def buildIterPass (files : List VFile) (patchOpt stridesOpt : Option (Nat × Nat))
    (depth s0 s1 : Nat) : List (Box × Box) :=
  files.flatMap fun vf =>
    (List.range (vf.frames / depth)).flatMap fun _ =>
      framePatches (shrinkDim vf.width s0) (shrinkDim vf.height s1)
        ((patchOpt.getD (shrinkDim vf.width s0, shrinkDim vf.height s1)).1)
        ((patchOpt.getD (shrinkDim vf.width s0, shrinkDim vf.height s1)).2)
        ((stridesOpt.getD (shrinkDim vf.width s0, shrinkDim vf.height s1)).1)
        ((stridesOpt.getD (shrinkDim vf.width s0, shrinkDim vf.height s1)).2)
        s0 s1

/-- The deterministic branch of `Loader.__len__` (lines 61-68): per file, with
the raw `vf.shape` dimensions, `((w - sz[0]) // sr[0] + 1) * ((h - sz[1]) //
sr[1] + 1)`, summed over files.  Python `//` on ints is floor division
(`Int.fdiv`); the subtraction can go negative, so the computation lives in `ℤ`. -/
def loaderLen (files : List VFile) (patchOpt stridesOpt : Option (Nat × Nat)) : Int :=
  (files.map fun vf =>
    (Int.fdiv ((vf.width : Int) - ((patchOpt.getD (vf.width, vf.height)).1 : Int))
        ((stridesOpt.getD (vf.width, vf.height)).1 : Int) + 1) *
    (Int.fdiv ((vf.height : Int) - ((patchOpt.getD (vf.width, vf.height)).2 : Int))
        ((stridesOpt.getD (vf.width, vf.height)).2 : Int) + 1)).sum

/-- Per-file quota of `Loader._build_random_iter` (lines 95-96):
`patch_per_file = max_patches // length`, then `+ 1` exactly when the floor
quotient differs from the true quotient `max_patches / length` (Python true
division).  For a positive divisor that inexactness test holds precisely when
`max_patches % length ≠ 0` (lemma `rat_floor_eq_div_iff` below), which is how
the test is rendered here so the definition stays kernel-computable. -/
def patchPerFile (maxPatches n : Nat) : Nat :=
  maxPatches / n + (if maxPatches % n = 0 then 0 else 1)

/-- The sequence of sampling slots `_build_random_iter` visits, in order: for
each file, for each of its `vf.frames // depth` depth-groups, `patch_per_file`
draw attempts, each carrying the (shrunken) frame dimensions. -/
def randomSlots (files : List VFile) (depth ppf s0 s1 : Nat) : List (Nat × Nat) :=
  files.flatMap fun vf =>
    (List.range (vf.frames / depth)).flatMap fun _ =>
      (List.range ppf).map fun _ => (shrinkDim vf.width s0, shrinkDim vf.height s1)

/-- How the generator body of `_build_random_iter` terminates: by falling off
the end of its loops, by executing `raise StopIteration()` (line 108), or by a
`ValueError` out of `np.random.randint` when the sampling range is empty. -/
inductive GenEnd where
  | fellOff
  | raisedStop
  | valueError
  deriving DecidableEq, Repr

/-- The loop body of `Loader._build_random_iter` (lines 106-115) over the slot
sequence: before each draw the global counter is checked against `max_patches`
(`raise StopIteration()` once reached); `np.random.randint(0, dim - patch + 1)`
raises `ValueError` when the patch exceeds the frame on an axis; otherwise the
oracle supplies the drawn origin `(x, y)` and the (hr, lr) box pair is yielded
and the counter incremented. -/
def runRandom (oracle : Nat → Nat × Nat) (patchOpt : Option (Nat × Nat))
    (maxPatches s0 s1 : Nat) : Nat → List (Nat × Nat) → List (Box × Box) × GenEnd
  | _, [] => ([], GenEnd.fellOff)
  | counter, slot :: rest =>
    if maxPatches ≤ counter then
      ([], GenEnd.raisedStop)
    else if slot.1 < (patchOpt.getD slot).1 ∨ slot.2 < (patchOpt.getD slot).2 then
      ([], GenEnd.valueError)
    else
      ((hrBox (oracle counter).1 (oracle counter).2
          (patchOpt.getD slot).1 (patchOpt.getD slot).2,
        lrBox (hrBox (oracle counter).1 (oracle counter).2
          (patchOpt.getD slot).1 (patchOpt.getD slot).2) s0 s1) ::
          (runRandom oracle patchOpt maxPatches s0 s1 (counter + 1) rest).1,
       (runRandom oracle patchOpt maxPatches s0 s1 (counter + 1) rest).2)

/-- One run of `Loader._build_random_iter` (lines 93-115): the per-file quota is
computed from `self.max_patches` and `self.length` (the file count fixed at
construction), and the slot sequence is consumed by the quota-checked loop. -/
def buildRandomIter (oracle : Nat → Nat × Nat) (files : List VFile)
    (patchOpt : Option (Nat × Nat)) (maxPatches depth s0 s1 : Nat) :
    List (Box × Box) × GenEnd :=
  runRandom oracle patchOpt maxPatches s0 s1 0
    (randomSlots files depth (patchPerFile maxPatches files.length) s0 s1)

/-- What the consumer of the iteration protocol observes when a generator
terminates. -/
inductive ConsumerSignal where
  | exhausted
  | errorRaised
  deriving DecidableEq, Repr

/-- Python generator termination as the consumer sees it (pre-PEP-479
semantics, current when this code was written): a `StopIteration` escaping the
generator body, like falling off the end, is ordinary exhaustion of the
iterator; any other exception surfaces as an error. -/
def observeGenEnd : GenEnd → ConsumerSignal
  | GenEnd.fellOff => ConsumerSignal.exhausted
  | GenEnd.raisedStop => ConsumerSignal.exhausted
  | GenEnd.valueError => ConsumerSignal.errorRaised

/-- The mutable state of a `Loader` relevant to its iteration protocol:
`self.built` (line 47/143) and `self.batch_iterator` (line 43, `None` until
`build_loader` installs a generator; the generator's remaining elements are the
list). -/
structure LoaderState where
  built : Bool
  batchIterator : Option (List (Box × Box))
  deriving DecidableEq, Repr

/-- Loader state right after `__init__` (lines 43 and 47): not built, no
iterator installed. -/
def initState : LoaderState := { built := false, batchIterator := none }

/-- Outcome of a Python call as the caller observes it. -/
inductive PyOutcome (α : Type) where
  | ok (a : α)
  | runtimeUsageError
  | stopIterationRaised
  | typeErrorRaised
  deriving DecidableEq, Repr

/-- `Loader.__next__` (lines 49-53): raises `RuntimeError` when not built;
otherwise executes `next(self.batch_iterator)` — `TypeError` on `None`,
`StopIteration` on an exhausted iterator — and returns Python `None` (the
drawn element is discarded), with the iterator advanced by one. -/
def loaderNext (l : LoaderState) : PyOutcome (Option (Box × Box) × LoaderState) :=
  if l.built = false then PyOutcome.runtimeUsageError
  else
    match l.batchIterator with
    | none => PyOutcome.typeErrorRaised
    | some [] => PyOutcome.stopIterationRaised
    | some (_ :: rest) => PyOutcome.ok (none, { l with batchIterator := some rest })

/-- `Loader.__iter__` (lines 55-56): returns `self.batch_iterator` as is
(`None` before `build_loader`). -/
def loaderIterMethod (l : LoaderState) : Option (List (Box × Box)) := l.batchIterator

/-- Python iteration protocol on the object `__iter__` hands back: `iter(x)`
raises `TypeError` when `x.__iter__()` returns a non-iterator (here `None`);
otherwise iteration proceeds over the iterator. -/
def iterProtocol (o : Option (List (Box × Box))) : PyOutcome (List (Box × Box)) :=
  match o with
  | none => PyOutcome.typeErrorRaised
  | some it => PyOutcome.ok it

/-- The accumulation loop of `BatchLoader._load_batch` (lines 186-201): pull
patch pairs, appending each to the accumulator, and return as soon as the
accumulator holds `batch_size` pairs (together with the unconsumed remainder);
when the upstream runs out, return whatever was accumulated. -/
def loadBatchAux (B : Nat) : List (Box × Box) → List (Box × Box) →
    List (Box × Box) × List (Box × Box)
  | acc, [] => (acc, [])
  | acc, x :: rest =>
    if (acc ++ [x]).length = B then (acc ++ [x], rest)
    else loadBatchAux B (acc ++ [x]) rest

/-- `BatchLoader._load_batch` starting from an empty accumulator. -/
def loadBatch (B : Nat) (upstream : List (Box × Box)) :
    List (Box × Box) × List (Box × Box) :=
  loadBatchAux B [] upstream

/-- Result of one `BatchLoader.__next__` call. -/
inductive BatchStep where
  | batch (b : List (Box × Box)) (rest : List (Box × Box))
  | stopEnd
  deriving DecidableEq, Repr

/-- `BatchLoader.__next__` (lines 172-179): `_load_batch` produced a non-empty
accumulation (stacked into arrays) → return it; the empty `[], []` result is
not an `np.ndarray`, so `StopIteration('End BatchLoader!')` is raised. -/
def batchNext (B : Nat) (upstream : List (Box × Box)) : BatchStep :=
  if (loadBatch B upstream).1.isEmpty then BatchStep.stopEnd
  else BatchStep.batch (loadBatch B upstream).1 (loadBatch B upstream).2

/-- The whole stream of batches `BatchLoader` emits over an upstream sequence,
by repeated `__next__` until `StopIteration`. -/
def batchRun (B : Nat) (upstream : List (Box × Box)) : List (List (Box × Box)) :=
  if h : (loadBatch B upstream).1.isEmpty then []
  else (loadBatch B upstream).1 :: batchRun B (loadBatch B upstream).2
termination_by upstream.length
decreasing_by
  rcases upstream with _ | ⟨x, t⟩
  · simp [loadBatch, loadBatchAux, List.isEmpty] at h
  · have key : ∀ (l acc : List (Box × Box)), ((loadBatchAux B acc l).2).length ≤ l.length := by
      intro l
      induction l with
      | nil => intro acc; simp [loadBatchAux]
      | cons y r ihl =>
        intro acc
        simp only [loadBatchAux]
        split
        · simpa using Nat.le_succ r.length
        · exact Nat.le_trans (ihl _) (Nat.le_succ _)
    have hle : ((loadBatchAux B [] (x :: t)).2).length ≤ t.length := by
      simp only [loadBatchAux]
      split
      · simp
      · exact key t _
    simpa [loadBatch] using Nat.lt_succ_of_le hle

/-- `BatchLoader.__len__` (lines 181-184): `int(np.ceil(len(self.loader) /
self.batch))`, the true division and ceiling modelled exactly over `ℚ`. -/
def batchLoaderLen (loaderCount B : Nat) : Nat :=
  Int.toNat (Int.ceil ((loaderCount : ℚ) / (B : ℚ)))

/-- The caller-owned dataset descriptor, restricted to the only part the
claims concern: the per-method file list (file paths abstracted to `Nat`
identifiers). -/
structure Dataset where
  files : List Nat
  deriving DecidableEq, Repr

/-- A media-file handle built by the loader for one input file. -/
structure FileHandle where
  path : Nat
  deriving DecidableEq, Repr

/-- Modelled from the spec: the per-method accessor `dataset.__getattr__(method)`
(class `Dataset`, not under `src/`) hands out the descriptor's stored file
list, and `np.random.shuffle(dataset_file)` (Loader.py line 31) permutes that
list in place; the shuffle outcome is passed in explicitly as the permuted
list.  Construction then builds one fresh handle per entry (lines 35-38).
Returned: the descriptor as it stands after construction, and the loader's
handle collection. -/
def loaderInit (d : Dataset) (shuffled : List Nat) : Dataset × List FileHandle :=
  ({ d with files := shuffled }, shuffled.map FileHandle.mk)

/-! Arithmetic helper lemmas. -/

theorem ceil_div_eq (L B : Nat) (hB : 0 < B) :
    (L + B - 1) / B = L / B + (if L % B = 0 then 0 else 1) := by
  have h := Nat.div_add_mod L B
  have hmodlt : L % B < B := Nat.mod_lt _ hB
  rcases Nat.eq_zero_or_pos (L % B) with h0 | hpos
  · rw [h0, if_pos rfl, Nat.add_zero]
    have e : L + B - 1 = B * (L / B) + (B - 1) := by
      generalize B * (L / B) = X at *
      omega
    rw [e, Nat.mul_add_div hB, Nat.div_eq_of_lt (show B - 1 < B by omega), Nat.add_zero]
  · rw [if_neg (by omega)]
    have e : L + B - 1 = B * (L / B + 1) + (L % B - 1) := by
      rw [Nat.mul_add, Nat.mul_one]
      generalize B * (L / B) = X at *
      omega
    rw [e, Nat.mul_add_div hB, Nat.div_eq_of_lt (show L % B - 1 < B by omega), Nat.add_zero]

theorem int_ceil_nat_div (L B : Nat) (hB : 0 < B) :
    Int.ceil ((L : ℚ) / (B : ℚ)) = (((L + B - 1) / B : Nat) : Int) := by
  have hBQ : (0 : ℚ) < (B : ℚ) := by exact_mod_cast hB
  have h := Nat.div_add_mod (L + B - 1) B
  have hlt : (L + B - 1) % B < B := Nat.mod_lt _ hB
  set n := (L + B - 1) / B with hn
  set r := (L + B - 1) % B with hr
  have h1 : L ≤ B * n := by
    generalize B * n = X at *
    omega
  have h2 : B * n < L + B := by
    generalize B * n = X at *
    omega
  rw [Int.ceil_eq_iff]
  constructor
  · rw [lt_div_iff₀ hBQ]
    have h2' : (B : ℚ) * (n : ℚ) < (L : ℚ) + (B : ℚ) := by exact_mod_cast h2
    push_cast
    nlinarith [h2']
  · rw [div_le_iff₀ hBQ]
    have h1' : (L : ℚ) ≤ (B : ℚ) * (n : ℚ) := by exact_mod_cast h1
    push_cast
    nlinarith [h1']

theorem batchLoaderLen_eq (L B : Nat) (hB : 0 < B) :
    batchLoaderLen L B = (L + B - 1) / B := by
  unfold batchLoaderLen
  rw [int_ceil_nat_div L B hB, Int.toNat_natCast]

/-- Justification for the rendering of the quota test in `patchPerFile`: the
floor quotient equals the true (rational) quotient exactly when the remainder
vanishes. -/
theorem rat_floor_eq_div_iff (L n : Nat) (hn : 0 < n) :
    ((L / n : Nat) : ℚ) = (L : ℚ) / (n : ℚ) ↔ L % n = 0 := by
  have hn' : ((n : ℚ)) ≠ 0 := by exact_mod_cast hn.ne'
  rw [eq_div_iff hn']
  constructor
  · intro hEq
    have h2 : ((L / n * n : Nat) : ℚ) = (L : ℚ) := by push_cast; exact_mod_cast hEq
    have h3 : L / n * n = L := by exact_mod_cast h2
    rw [Nat.mul_comm] at h3
    have h4 := Nat.div_add_mod L n
    generalize n * (L / n) = X at h3 h4
    omega
  · intro hmod
    have h4 := Nat.div_add_mod L n
    have h3 : (L / n) * n = L := by
      rw [Nat.mul_comm]
      generalize n * (L / n) = X at h4 ⊢
      omega
    calc ((L / n : Nat) : ℚ) * (n : ℚ) = ((L / n * n : Nat) : ℚ) := by push_cast; ring
    _ = (L : ℚ) := by rw [h3]

theorem patchPerFile_eq (L n : Nat) :
    patchPerFile L n = L / n + (if L % n = 0 then 0 else 1) := rfl

/-! Helper lemmas about the extraction generators. -/

theorem dvd_shrinkDim (w s : Nat) : s ∣ shrinkDim w s := by
  refine ⟨w / s, ?_⟩
  unfold shrinkDim
  have h := Nat.div_add_mod w s
  generalize s * (w / s) = X at *
  omega

theorem of_mem_pyRange {x stop step : Nat} (hx : x ∈ pyRange stop step) :
    ∃ k, x = step * k := by
  unfold pyRange at hx
  rw [List.mem_range'] at hx
  obtain ⟨i, _, rfl⟩ := hx
  exact ⟨i, by simp⟩

theorem of_mem_framePatches {pr : Box × Box} {W H pw ph sw sh s0 s1 : Nat}
    (hpr : pr ∈ framePatches W H pw ph sw sh s0 s1) :
    ∃ w h, w ∈ pyRange W sw ∧ h ∈ pyRange H sh ∧ w + pw ≤ W ∧ h + ph ≤ H ∧
      pr = (hrBox w h pw ph, lrBox (hrBox w h pw ph) s0 s1) := by
  unfold framePatches gridCells at hpr
  rw [List.mem_filterMap] at hpr
  obtain ⟨c, hc, hsome⟩ := hpr
  rw [List.mem_flatMap] at hc
  obtain ⟨w, hw, hc2⟩ := hc
  rw [List.mem_map] at hc2
  obtain ⟨h, hh, rfl⟩ := hc2
  split at hsome
  · exact absurd hsome (by simp)
  · rename_i hcond
    simp only [not_or, not_lt] at hcond
    injection hsome with h2
    exact ⟨w, h, hw, hh, hcond.1, hcond.2, h2.symm⟩

theorem of_mem_buildIterPass {pr : Box × Box} {files : List VFile}
    {patchOpt stridesOpt : Option (Nat × Nat)} {depth s0 s1 : Nat}
    (hpr : pr ∈ buildIterPass files patchOpt stridesOpt depth s0 s1) :
    ∃ vf ∈ files,
      pr ∈ framePatches (shrinkDim vf.width s0) (shrinkDim vf.height s1)
        ((patchOpt.getD (shrinkDim vf.width s0, shrinkDim vf.height s1)).1)
        ((patchOpt.getD (shrinkDim vf.width s0, shrinkDim vf.height s1)).2)
        ((stridesOpt.getD (shrinkDim vf.width s0, shrinkDim vf.height s1)).1)
        ((stridesOpt.getD (shrinkDim vf.width s0, shrinkDim vf.height s1)).2)
        s0 s1 := by
  unfold buildIterPass at hpr
  rw [List.mem_flatMap] at hpr
  obtain ⟨vf, hvf, h2⟩ := hpr
  rw [List.mem_flatMap] at h2
  obtain ⟨_, _, h3⟩ := h2
  exact ⟨vf, hvf, h3⟩

theorem of_mem_randomSlots {s : Nat × Nat} {files : List VFile} {depth ppf s0 s1 : Nat}
    (hs : s ∈ randomSlots files depth ppf s0 s1) :
    ∃ vf ∈ files, s = (shrinkDim vf.width s0, shrinkDim vf.height s1) := by
  unfold randomSlots at hs
  rw [List.mem_flatMap] at hs
  obtain ⟨vf, hvf, h2⟩ := hs
  rw [List.mem_flatMap] at h2
  obtain ⟨_, _, h3⟩ := h2
  rw [List.mem_map] at h3
  obtain ⟨_, _, h4⟩ := h3
  exact ⟨vf, hvf, h4.symm⟩

theorem of_mem_runRandom {oracle : Nat → Nat × Nat} {patchOpt : Option (Nat × Nat)}
    {maxP s0 s1 : Nat} {slots : List (Nat × Nat)} :
    ∀ {counter : Nat} {pr : Box × Box},
      pr ∈ (runRandom oracle patchOpt maxP s0 s1 counter slots).1 →
      ∃ slot ∈ slots, ∃ x y : Nat,
        pr = (hrBox x y (patchOpt.getD slot).1 (patchOpt.getD slot).2,
          lrBox (hrBox x y (patchOpt.getD slot).1 (patchOpt.getD slot).2) s0 s1) := by
  induction slots with
  | nil =>
    intro counter pr h
    simp [runRandom] at h
  | cons slot rest ih =>
    intro counter pr h
    rw [runRandom] at h
    split at h
    · simp at h
    · split at h
      · simp at h
      · simp only [List.mem_cons] at h
        rcases h with h | h
        · exact ⟨slot, List.mem_cons_self _ _, (oracle counter).1, (oracle counter).2, h⟩
        · obtain ⟨s2, hs2, x, y, hpr⟩ := ih h
          exact ⟨s2, List.mem_cons_of_mem _ hs2, x, y, hpr⟩

theorem runRandom_spec (oracle : Nat → Nat × Nat) (patchOpt : Option (Nat × Nat))
    (maxP s0 s1 : Nat) :
    ∀ (slots : List (Nat × Nat)) (counter : Nat),
      (∀ s ∈ slots, (patchOpt.getD s).1 ≤ s.1 ∧ (patchOpt.getD s).2 ≤ s.2) →
      (runRandom oracle patchOpt maxP s0 s1 counter slots).1.length
          = min (maxP - counter) slots.length ∧
      ((runRandom oracle patchOpt maxP s0 s1 counter slots).2 = GenEnd.raisedStop
          ↔ maxP - counter < slots.length) ∧
      (runRandom oracle patchOpt maxP s0 s1 counter slots).2 ≠ GenEnd.valueError := by
  intro slots
  induction slots with
  | nil =>
    intro counter hfit
    refine ⟨by simp [runRandom], by simp [runRandom], by simp [runRandom]⟩
  | cons slot rest ih =>
    intro counter hfit
    have hfit0 := hfit slot (List.mem_cons_self _ _)
    have ihr := ih (counter + 1) (fun s hs => hfit s (List.mem_cons_of_mem _ hs))
    by_cases hc : maxP ≤ counter
    · have heq : runRandom oracle patchOpt maxP s0 s1 counter (slot :: rest)
          = ([], GenEnd.raisedStop) := by
        rw [runRandom, if_pos hc]
      refine ⟨?_, ?_, ?_⟩
      · rw [heq]
        simp only [List.length_nil, List.length_cons]
        omega
      · rw [heq]
        simp only [List.length_cons]
        constructor
        · intro
          omega
        · intro
          trivial
      · rw [heq]
        intro hcontra
        exact GenEnd.noConfusion hcontra
    · have hnc : ¬ (slot.1 < (patchOpt.getD slot).1 ∨ slot.2 < (patchOpt.getD slot).2) := by
        omega
      refine ⟨?_, ?_, ?_⟩
      · simp only [runRandom, if_neg hc, if_neg hnc, List.length_cons]
        rw [ihr.1]
        omega
      · simp only [runRandom, if_neg hc, if_neg hnc, List.length_cons]
        rw [ihr.2.1]
        omega
      · simp only [runRandom, if_neg hc, if_neg hnc]
        exact ihr.2.2

/-! Helper lemmas about the batch assembler. -/

theorem loadBatchAux_eq (B : Nat) (hB : 0 < B) :
    ∀ (l acc : List (Box × Box)), acc.length < B →
      loadBatchAux B acc l = (acc ++ l.take (B - acc.length), l.drop (B - acc.length)) := by
  intro l
  induction l with
  | nil =>
    intro acc hacc
    simp [loadBatchAux]
  | cons x rest ih =>
    intro acc hacc
    rw [loadBatchAux]
    by_cases hfull : (acc ++ [x]).length = B
    · rw [if_pos hfull]
      have h1 : B - acc.length = 1 := by
        simp only [List.length_append, List.length_singleton] at hfull
        omega
      rw [h1]
      simp
    · rw [if_neg hfull]
      have hacc2 : (acc ++ [x]).length < B := by
        simp only [List.length_append, List.length_singleton] at hfull ⊢
        omega
      rw [ih _ hacc2]
      have h2 : B - acc.length = (B - (acc ++ [x]).length) + 1 := by
        simp only [List.length_append, List.length_singleton]
        omega
      rw [h2]
      simp [List.append_assoc]

theorem loadBatch_eq (B : Nat) (hB : 0 < B) (l : List (Box × Box)) :
    loadBatch B l = (l.take B, l.drop B) := by
  unfold loadBatch
  rw [loadBatchAux_eq B hB l [] (by simpa using hB)]
  simp

theorem filterMap_if_eq_filter_map {α β : Type} (p : α → Prop) [DecidablePred p]
    (f : α → β) (l : List α) :
    (l.filterMap fun a => if p a then none else some (f a))
      = (l.filter fun a => ! decide (p a)).map f := by
  induction l with
  | nil => rfl
  | cons a t ih =>
    by_cases ha : p a
    · simp [ha, ih]
    · simp [ha, ih]

theorem batchRun_nil (B : Nat) : batchRun B [] = [] := by
  rw [batchRun]
  simp [loadBatch, loadBatchAux]

theorem batchRun_cons (B : Nat) (hB : 0 < B) (x : Box × Box) (t : List (Box × Box)) :
    batchRun B (x :: t) = (x :: t).take B :: batchRun B ((x :: t).drop B) := by
  rw [batchRun, loadBatch_eq B hB]
  have hne : ((x :: t).take B).isEmpty = false := by
    cases B with
    | zero => omega
    | succ n => simp [List.take]
  simp [hne]

theorem batchRun_map_length (B : Nat) (hB : 0 < B) (l : List (Box × Box)) :
    (batchRun B l).map List.length =
      List.replicate (l.length / B) B ++
        (if l.length % B = 0 then [] else [l.length % B]) := by
  rcases l with _ | ⟨x, t⟩
  · simp [batchRun_nil]
  · rw [batchRun_cons B hB]
    rcases Nat.lt_or_ge (t.length + 1) B with hlt | hge
    · have htake : (x :: t).take B = x :: t := List.take_of_length_le (by simp; omega)
      have hdrop : (x :: t).drop B = [] := List.drop_eq_nil_of_le (by simp; omega)
      have hdiv : (x :: t).length / B = 0 := Nat.div_eq_of_lt (by simp; omega)
      have hmod : (x :: t).length % B = (x :: t).length := Nat.mod_eq_of_lt (by simp; omega)
      rw [htake, hdrop, batchRun_nil, hdiv, hmod]
      simp
    · have IH := batchRun_map_length B hB ((x :: t).drop B)
      have htake : ((x :: t).take B).length = B := by
        rw [List.length_take]
        simp only [List.length_cons]
        omega
      have hdroplen : ((x :: t).drop B).length = (x :: t).length - B := by
        rw [List.length_drop]
      rw [List.map_cons, IH, htake, hdroplen]
      have hN : (x :: t).length = ((x :: t).length - B) + B := by
        simp only [List.length_cons]
        omega
      generalize hm : (x :: t).length - B = m at hN ⊢
      rw [hN, Nat.add_div_right _ hB, Nat.add_mod_right, List.replicate_succ, List.cons_append]
termination_by l.length
decreasing_by
  simp only [List.length_drop, List.length_cons]
  omega

/-! Claim theorems. -/

/-- C1: the claim says the closed-form grid formula of the length query equals
the yield of one non-looping extraction pass for every file collection, depth
and scale; the code violates this: `__len__` counts one grid per file and
never multiplies by the `vf.frames // depth` depth-groups the generator walks.
For a single 4×4 file holding 2 frames, depth 1, patch (2,2), stride (2,2),
scale (1,1), the length query reports 4 while the pass yields 8 pairs. -/
theorem c1_len_vs_pass_mismatch :
    loaderLen [⟨4, 4, 2⟩] (some (2, 2)) (some (2, 2)) = 4 ∧
    (buildIterPass [⟨4, 4, 2⟩] (some (2, 2)) (some (2, 2)) 1 1 1).length = 8 := by
  constructor
  · decide
  · decide

/-- C2: in random mode, for every file collection (nonempty, with every patch
fitting its frame) whose slot supply — files × depth-groups × per-file quota —
can cover the quota, the extraction yields exactly `max_patches` pairs in
total and never more. -/
theorem c2_random_quota_exact (oracle : Nat → Nat × Nat) (files : List VFile)
    (patchOpt : Option (Nat × Nat)) (maxP depth s0 s1 : Nat)
    (_hfiles : 0 < files.length)
    (hfit : ∀ s ∈ randomSlots files depth (patchPerFile maxP files.length) s0 s1,
      (patchOpt.getD s).1 ≤ s.1 ∧ (patchOpt.getD s).2 ≤ s.2)
    (hsupply : maxP ≤
      (randomSlots files depth (patchPerFile maxP files.length) s0 s1).length) :
    (buildRandomIter oracle files patchOpt maxP depth s0 s1).1.length = maxP := by
  unfold buildRandomIter
  rw [(runRandom_spec oracle patchOpt maxP s0 s1 _ 0 hfit).1]
  omega

/-- Witness for C2 at a concrete input: one 4×4 single-frame file, patch
(2,2), quota 1 — exactly one pair is yielded. -/
theorem c2_witness :
    (buildRandomIter (fun _ => (0, 0)) [⟨4, 4, 1⟩] (some (2, 2)) 1 1 2 2).1.length = 1 :=
  c2_random_quota_exact (fun _ => (0, 0)) [⟨4, 4, 1⟩] (some (2, 2)) 1 1 2 2
    (by decide) (by decide) (by decide)

/-- C3: when the random-mode extraction ends (in particular when the quota is
reached, possibly mid-stream via the in-generator `raise StopIteration()`),
the consumer observes ordinary end-of-iteration, not an error: under the
fit hypothesis the generator never ends in `ValueError`, so its termination is
observed as exhaustion; and whenever the quota is strictly below the slot
supply the termination is precisely the raised stop. -/
theorem c3_exhaustion_signal (oracle : Nat → Nat × Nat) (files : List VFile)
    (patchOpt : Option (Nat × Nat)) (maxP depth s0 s1 : Nat)
    (hfit : ∀ s ∈ randomSlots files depth (patchPerFile maxP files.length) s0 s1,
      (patchOpt.getD s).1 ≤ s.1 ∧ (patchOpt.getD s).2 ≤ s.2) :
    observeGenEnd (buildRandomIter oracle files patchOpt maxP depth s0 s1).2
        = ConsumerSignal.exhausted ∧
    (maxP < (randomSlots files depth (patchPerFile maxP files.length) s0 s1).length →
      (buildRandomIter oracle files patchOpt maxP depth s0 s1).2 = GenEnd.raisedStop) := by
  unfold buildRandomIter
  have hspec := runRandom_spec oracle patchOpt maxP s0 s1
    (randomSlots files depth (patchPerFile maxP files.length) s0 s1) 0 hfit
  constructor
  · cases hend : (runRandom oracle patchOpt maxP s0 s1 0
        (randomSlots files depth (patchPerFile maxP files.length) s0 s1)).2 with
    | fellOff => rfl
    | raisedStop => rfl
    | valueError => exact absurd hend hspec.2.2
  · intro hlt
    rw [hspec.2.1]
    omega

/-- Witness for C3 at a concrete input: a two-frame 4×4 file gives two slots
for quota 1, so the stop is raised mid-stream and observed as exhaustion. -/
theorem c3_witness :
    observeGenEnd (buildRandomIter (fun _ => (0, 0)) [⟨4, 4, 2⟩] (some (2, 2)) 1 1 2 2).2
        = ConsumerSignal.exhausted ∧
    (buildRandomIter (fun _ => (0, 0)) [⟨4, 4, 2⟩] (some (2, 2)) 1 1 2 2).2
        = GenEnd.raisedStop :=
  ⟨(c3_exhaustion_signal (fun _ => (0, 0)) [⟨4, 4, 2⟩] (some (2, 2)) 1 1 2 2 (by decide)).1,
   (c3_exhaustion_signal (fun _ => (0, 0)) [⟨4, 4, 2⟩] (some (2, 2)) 1 1 2 2 (by decide)).2
     (by decide)⟩

/-- C4 counterexample: the claim asserts exact (zero-remainder) division of
all four crop-box coordinates in both modes, but in random mode the drawn
origin need not be a multiple of the scale: with scale (2,2), patch (2,2) on a
4×4 frame and the draw (1,0), the emitted pair has high-res left 1 and low-res
left 0, and 0 * 2 ≠ 1. -/
theorem c4_counterexample :
    ¬ (∀ pr ∈ (buildRandomIter (fun _ => (1, 0)) [⟨4, 4, 1⟩] (some (2, 2)) 1 1 2 2).1,
      pr.2.left * 2 = pr.1.left ∧ pr.2.top * 2 = pr.1.top ∧
      pr.2.right * 2 = pr.1.right ∧ pr.2.bottom * 2 = pr.1.bottom) := by
  decide

/-- C4 (amended): with positive per-axis scales and scale-normalized patch and
stride parameters, every pair emitted in deterministic mode has all four
low-res coordinates equal to the high-res coordinates divided exactly by the
scale (zero remainder); in random mode only the patch dimensions are exact —
every emitted pair's low-res width and height equal the high-res width and
height divided exactly by the scale. -/
theorem c4_amended_scale_alignment (files : List VFile)
    (patchOpt stridesOpt : Option (Nat × Nat)) (depth s0 s1 maxP : Nat)
    (oracle : Nat → Nat × Nat)
    (hs0 : 0 < s0) (hs1 : 0 < s1)
    (hp : ∀ pw ph, patchOpt = some (pw, ph) → s0 ∣ pw ∧ s1 ∣ ph)
    (hst : ∀ sw sh, stridesOpt = some (sw, sh) → s0 ∣ sw ∧ s1 ∣ sh) :
    (∀ pr ∈ buildIterPass files patchOpt stridesOpt depth s0 s1,
      pr.2.left * s0 = pr.1.left ∧ pr.2.top * s1 = pr.1.top ∧
      pr.2.right * s0 = pr.1.right ∧ pr.2.bottom * s1 = pr.1.bottom) ∧
    (∀ pr ∈ (buildRandomIter oracle files patchOpt maxP depth s0 s1).1,
      (pr.2.right - pr.2.left) * s0 = pr.1.right - pr.1.left ∧
      (pr.2.bottom - pr.2.top) * s1 = pr.1.bottom - pr.1.top) := by
  constructor
  · intro pr hpr
    obtain ⟨vf, hvf, hfp⟩ := of_mem_buildIterPass hpr
    obtain ⟨w, h, hw, hh, hwb, hhb, rfl⟩ := of_mem_framePatches hfp
    obtain ⟨kw, rfl⟩ := of_mem_pyRange hw
    obtain ⟨kh, rfl⟩ := of_mem_pyRange hh
    have hdsw : s0 ∣ (stridesOpt.getD (shrinkDim vf.width s0, shrinkDim vf.height s1)).1 := by
      cases stridesOpt with
      | none => exact dvd_shrinkDim vf.width s0
      | some p => exact (hst p.1 p.2 rfl).1
    have hdsh : s1 ∣ (stridesOpt.getD (shrinkDim vf.width s0, shrinkDim vf.height s1)).2 := by
      cases stridesOpt with
      | none => exact dvd_shrinkDim vf.height s1
      | some p => exact (hst p.1 p.2 rfl).2
    have hdpw : s0 ∣ (patchOpt.getD (shrinkDim vf.width s0, shrinkDim vf.height s1)).1 := by
      cases patchOpt with
      | none => exact dvd_shrinkDim vf.width s0
      | some p => exact (hp p.1 p.2 rfl).1
    have hdph : s1 ∣ (patchOpt.getD (shrinkDim vf.width s0, shrinkDim vf.height s1)).2 := by
      cases patchOpt with
      | none => exact dvd_shrinkDim vf.height s1
      | some p => exact (hp p.1 p.2 rfl).2
    refine ⟨?_, ?_, ?_, ?_⟩
    · exact Nat.div_mul_cancel (hdsw.mul_right kw)
    · exact Nat.div_mul_cancel (hdsh.mul_right kh)
    · exact Nat.div_mul_cancel (dvd_add (hdsw.mul_right kw) hdpw)
    · exact Nat.div_mul_cancel (dvd_add (hdsh.mul_right kh) hdph)
  · intro pr hpr
    unfold buildRandomIter at hpr
    obtain ⟨slot, hslot, x, y, rfl⟩ := of_mem_runRandom hpr
    obtain ⟨vf, hvf, rfl⟩ := of_mem_randomSlots hslot
    have hdpw : s0 ∣ (patchOpt.getD (shrinkDim vf.width s0, shrinkDim vf.height s1)).1 := by
      cases patchOpt with
      | none => exact dvd_shrinkDim vf.width s0
      | some p => exact (hp p.1 p.2 rfl).1
    have hdph : s1 ∣ (patchOpt.getD (shrinkDim vf.width s0, shrinkDim vf.height s1)).2 := by
      cases patchOpt with
      | none => exact dvd_shrinkDim vf.height s1
      | some p => exact (hp p.1 p.2 rfl).2
    obtain ⟨m, hm⟩ := hdpw
    obtain ⟨k, hk⟩ := hdph
    constructor
    · simp only [hrBox, lrBox]
      rw [hm, Nat.add_mul_div_left x m hs0]
      simp only [Nat.add_sub_cancel_left]
      exact Nat.mul_comm m s0
    · simp only [hrBox, lrBox]
      rw [hk, Nat.add_mul_div_left y k hs1]
      simp only [Nat.add_sub_cancel_left]
      exact Nat.mul_comm k s1

/-- Witness for the amended C4 at a concrete input: deterministic mode on one
4×4 single-frame file with patch (2,2), stride (2,2), scale (2,2): the grid
cell at the origin yields a pair whose low-res coordinates times 2 recover the
high-res coordinates. -/
theorem c4_witness :
    (hrBox 0 0 2 2, lrBox (hrBox 0 0 2 2) 2 2).2.left * 2
        = (hrBox 0 0 2 2, lrBox (hrBox 0 0 2 2) 2 2).1.left ∧
    (hrBox 0 0 2 2, lrBox (hrBox 0 0 2 2) 2 2).2.top * 2
        = (hrBox 0 0 2 2, lrBox (hrBox 0 0 2 2) 2 2).1.top ∧
    (hrBox 0 0 2 2, lrBox (hrBox 0 0 2 2) 2 2).2.right * 2
        = (hrBox 0 0 2 2, lrBox (hrBox 0 0 2 2) 2 2).1.right ∧
    (hrBox 0 0 2 2, lrBox (hrBox 0 0 2 2) 2 2).2.bottom * 2
        = (hrBox 0 0 2 2, lrBox (hrBox 0 0 2 2) 2 2).1.bottom :=
  (c4_amended_scale_alignment [⟨4, 4, 1⟩] (some (2, 2)) (some (2, 2)) 1 2 2 1
      (fun _ => (0, 0)) (by decide) (by decide)
      (by intro pw ph hsome; cases hsome; exact ⟨⟨1, rfl⟩, ⟨1, rfl⟩⟩)
      (by intro sw sh hsome; cases hsome; exact ⟨⟨1, rfl⟩, ⟨1, rfl⟩⟩)).1
    (hrBox 0 0 2 2, lrBox (hrBox 0 0 2 2) 2 2) (by decide)

/-- C5: in deterministic mode every emitted high-resolution crop box stays
inside the frame (`right ≤ W` and `bottom ≤ H`), and the grid walk emits
exactly the in-bounds grid cells — an overflowing cell is skipped without
yielding and without any error (the extraction is a total function on the
grid). -/
theorem c5_bounds_and_skip (W H pw ph sw sh s0 s1 : Nat) :
    (∀ pr ∈ framePatches W H pw ph sw sh s0 s1,
      pr.1.right ≤ W ∧ pr.1.bottom ≤ H) ∧
    framePatches W H pw ph sw sh s0 s1 =
      ((gridCells W H sw sh).filter fun c => ! decide (W < c.1 + pw ∨ H < c.2 + ph)).map
        fun c => (hrBox c.1 c.2 pw ph, lrBox (hrBox c.1 c.2 pw ph) s0 s1) := by
  constructor
  · intro pr hpr
    obtain ⟨w, h, _, _, hwb, hhb, rfl⟩ := of_mem_framePatches hpr
    exact ⟨hwb, hhb⟩
  · exact filterMap_if_eq_filter_map (fun c => W < c.1 + pw ∨ H < c.2 + ph)
      (fun c => (hrBox c.1 c.2 pw ph, lrBox (hrBox c.1 c.2 pw ph) s0 s1))
      (gridCells W H sw sh)

/-- Witness for C5 at the spec's boundary example (W = 10, patch width 4,
stride 3): the cell at x = 6 is emitted and its box stays inside the frame. -/
theorem c5_witness :
    (hrBox 6 0 4 2, lrBox (hrBox 6 0 4 2) 1 1).1.right ≤ 10 ∧
    (hrBox 6 0 4 2, lrBox (hrBox 6 0 4 2) 1 1).1.bottom ≤ 4 :=
  (c5_bounds_and_skip 10 4 4 2 3 2 1 1).1
    (hrBox 6 0 4 2, lrBox (hrBox 6 0 4 2) 1 1) (by decide)

/-- C6 counterexample: the claim says construction leaves the descriptor's
per-method file list unchanged; but the in-place shuffle permutes the very
list the descriptor hands out, so for the descriptor `[0, 1]` and the
realizable shuffle outcome `[1, 0]` the descriptor's list after construction
differs from the original. -/
theorem c6_counterexample :
    List.Perm [1, 0] (Dataset.mk [0, 1]).files ∧
    ¬ ((loaderInit (Dataset.mk [0, 1]) [1, 0]).1.files = (Dataset.mk [0, 1]).files) := by
  constructor
  · decide
  · decide

/-- C6 (amended): construction shuffles the descriptor-provided list in place,
so after construction the descriptor's per-method file list is the shuffled
list — a permutation of the original (content preserved as a multiset, order
possibly changed) — and the loader's handle collection is built fresh, one
handle per (shuffled) entry. -/
theorem c6_amended_shuffle (d : Dataset) (shuffled : List Nat)
    (hperm : List.Perm shuffled d.files) :
    List.Perm (loaderInit d shuffled).1.files d.files ∧
    (loaderInit d shuffled).1.files = shuffled ∧
    (loaderInit d shuffled).2 = shuffled.map FileHandle.mk :=
  ⟨hperm, rfl, rfl⟩

/-- Witness for the amended C6 at a concrete input. -/
theorem c6_witness :
    List.Perm (loaderInit (Dataset.mk [0, 1]) [1, 0]).1.files (Dataset.mk [0, 1]).files ∧
    (loaderInit (Dataset.mk [0, 1]) [1, 0]).1.files = [1, 0] ∧
    (loaderInit (Dataset.mk [0, 1]) [1, 0]).2 = [1, 0].map FileHandle.mk :=
  c6_amended_shuffle (Dataset.mk [0, 1]) [1, 0] (by decide)

/-- C7 counterexample: the claim says every path that requests the next
element before build is rejected with the explicit usage error; but the
iterator path hands back `None` from `__iter__`, and the iteration protocol
then fails with a type error, not with the explicit usage `RuntimeError`. -/
theorem c7_counterexample :
    ¬ (iterProtocol (loaderIterMethod initState) = PyOutcome.runtimeUsageError) := by
  decide

/-- C7 (amended): before build (the `__init__` state: not built, iterator
`None`) no path yields an element — the direct `next()` path raises the
explicit usage `RuntimeError`, while the `iter()` path fails with the generic
protocol type error on the `None` non-iterator. -/
theorem c7_amended_prebuild (l : LoaderState) (hb : l.built = false)
    (hn : l.batchIterator = none) :
    loaderNext l = PyOutcome.runtimeUsageError ∧
    iterProtocol (loaderIterMethod l) = PyOutcome.typeErrorRaised := by
  constructor
  · simp [loaderNext, hb]
  · simp [iterProtocol, loaderIterMethod, hn]

/-- Witness for the amended C7 at the freshly constructed loader state. -/
theorem c7_witness :
    loaderNext initState = PyOutcome.runtimeUsageError ∧
    iterProtocol (loaderIterMethod initState) = PyOutcome.typeErrorRaised :=
  c7_amended_prebuild initState rfl rfl

/-- C8: over an upstream sequence of N patch pairs with batch size B > 0, the
assembler emits `N / B` batches of exactly B pairs followed, when `N % B ≠ 0`,
by one final batch of `N % B` pairs; a `__next__` on an exhausted upstream
with nothing accumulated signals stream exhaustion immediately; and the
length query `ceil(N / B)` equals the number of batches actually emitted. -/
theorem c8_batch_stream (B : Nat) (hB : 0 < B) (ps : List (Box × Box)) :
    (batchRun B ps).map List.length =
      List.replicate (ps.length / B) B ++
        (if ps.length % B = 0 then [] else [ps.length % B]) ∧
    batchNext B ([] : List (Box × Box)) = BatchStep.stopEnd ∧
    (batchRun B ps).length = batchLoaderLen ps.length B := by
  refine ⟨batchRun_map_length B hB ps, ?_, ?_⟩
  · simp [batchNext, loadBatch, loadBatchAux]
  · have h1 : (batchRun B ps).length = ((batchRun B ps).map List.length).length := by
      rw [List.length_map]
    rw [h1, batchRun_map_length B hB ps, batchLoaderLen_eq _ _ hB, ceil_div_eq _ _ hB]
    by_cases hmod : ps.length % B = 0
    · simp [hmod]
    · simp [hmod]

/-- Witness for C8 at the spec's batch-shape example: 10 patch pairs with
batch size 4 give batches of sizes 4, 4, 2 and a reported length of 3. -/
theorem c8_witness :
    (batchRun 4 (List.replicate 10 (hrBox 0 0 1 1, lrBox (hrBox 0 0 1 1) 1 1))).map
        List.length =
      List.replicate
          ((List.replicate 10 (hrBox 0 0 1 1, lrBox (hrBox 0 0 1 1) 1 1)).length / 4) 4 ++
        (if (List.replicate 10 (hrBox 0 0 1 1, lrBox (hrBox 0 0 1 1) 1 1)).length % 4 = 0
          then []
          else [(List.replicate 10 (hrBox 0 0 1 1, lrBox (hrBox 0 0 1 1) 1 1)).length % 4]) ∧
    batchNext 4 ([] : List (Box × Box)) = BatchStep.stopEnd ∧
    (batchRun 4 (List.replicate 10 (hrBox 0 0 1 1, lrBox (hrBox 0 0 1 1) 1 1))).length =
      batchLoaderLen (List.replicate 10 (hrBox 0 0 1 1, lrBox (hrBox 0 0 1 1) 1 1)).length 4 :=
  c8_batch_stream 4 (by decide) (List.replicate 10 (hrBox 0 0 1 1, lrBox (hrBox 0 0 1 1) 1 1))

/-- C9: for positive `max_patches` and file count, the per-file quota computed
at the start of random extraction equals `ceil(max_patches / file_count)`, and
quota × file_count ≥ max_patches. -/
theorem c9_per_file_quota (maxP n : Nat) (_hm : 0 < maxP) (hn : 0 < n) :
    ((patchPerFile maxP n : Nat) : Int) = Int.ceil ((maxP : ℚ) / (n : ℚ)) ∧
    maxP ≤ patchPerFile maxP n * n := by
  have hpf := patchPerFile_eq maxP n
  have hnat : patchPerFile maxP n = (maxP + n - 1) / n := by
    rw [hpf, ceil_div_eq maxP n hn]
  constructor
  · rw [int_ceil_nat_div maxP n hn]
    exact_mod_cast hnat
  · rw [hpf]
    have h := Nat.div_add_mod maxP n
    by_cases hmod : maxP % n = 0
    · rw [if_pos hmod, Nat.add_zero]
      have h2 : maxP / n * n = n * (maxP / n) := Nat.mul_comm _ _
      rw [h2]
      generalize n * (maxP / n) = X at h ⊢
      omega
    · rw [if_neg hmod, Nat.add_mul, Nat.one_mul]
      have hlt : maxP % n < n := Nat.mod_lt _ hn
      have h2 : maxP / n * n = n * (maxP / n) := Nat.mul_comm _ _
      rw [h2]
      generalize n * (maxP / n) = X at h ⊢
      omega

/-- Witness for C9 at the spec's example: `max_patches = 17` over 5 files
gives quota 4 = `ceil(17/5)`, and 4 × 5 ≥ 17. -/
theorem c9_witness :
    ((patchPerFile 17 5 : Nat) : Int) = Int.ceil ((17 : ℚ) / (5 : ℚ)) ∧
    17 ≤ patchPerFile 17 5 * 5 :=
  c9_per_file_quota 17 5 (by decide) (by decide)

/-- C10: on a built loader whose underlying iterator still has elements,
`__next__` advances the iterator by one element but returns Python `None`
(the drawn pair is discarded), while `__iter__` hands out the iterator itself,
so element values are only obtainable through `__iter__`. -/
theorem c10_next_returns_none (l : LoaderState) (p : Box × Box)
    (rest : List (Box × Box))
    (hb : l.built = true) (hit : l.batchIterator = some (p :: rest)) :
    loaderNext l = PyOutcome.ok (none, { l with batchIterator := some rest }) ∧
    loaderIterMethod l = some (p :: rest) := by
  constructor
  · simp [loaderNext, hb, hit]
  · simpa [loaderIterMethod] using hit

/-- Witness for C10 at a concrete built loader holding one pending pair. -/
theorem c10_witness :
    loaderNext (LoaderState.mk true (some [(hrBox 0 0 2 2, lrBox (hrBox 0 0 2 2) 1 1)])) =
      PyOutcome.ok (none, LoaderState.mk true (some ([] : List (Box × Box)))) ∧
    loaderIterMethod (LoaderState.mk true (some [(hrBox 0 0 2 2, lrBox (hrBox 0 0 2 2) 1 1)])) =
      some [(hrBox 0 0 2 2, lrBox (hrBox 0 0 2 2) 1 1)] :=
  c10_next_returns_none
    (LoaderState.mk true (some [(hrBox 0 0 2 2, lrBox (hrBox 0 0 2 2) 1 1)]))
    (hrBox 0 0 2 2, lrBox (hrBox 0 0 2 2) 1 1) [] rfl rfl

end VSR
